import Mathlib

/-!
Verification of the Space-Travel renderer (src/proyecto3/src/main.rs and
src/proyecto3/src/obj.rs) against its natural-language specification.

Embedding conventions:
* `f32` values are modelled as exact rationals (`ℚ`); decimal literals of the
  source are read at their exact decimal value.
* The transcendental `f32` operations (`sqrt`, `sin`, `cos`, `tan`) have no
  exact rational counterpart, so every definition that calls one takes the
  corresponding function as an explicit parameter (`sq`, `sinF`, `cosF`) or a
  parameter for the constant `tan(FOV/2)` (`ff`).  Theorems that depend on the
  meaning of a square root constrain the parameter pointwise through `IsSqrt`,
  which characterises the exact real square root at the points used.
* Machine integers are `ℕ`/`ℤ` with explicit wrap-around (`% 2^32`, `% 2^64`)
  where the source relies on wrapping; `as i32` / `as usize` casts of
  nonnegative floats are truncation toward zero (`ftoi`).
* The color and depth frame buffers are modelled as total functions
  `ℕ → ℕ` and `ℕ → ℚ` indexed by `y*WIDTH + x`, together with the explicit
  length `n` wherever the source checks `idx < buffer.len()`.
-/

namespace SpaceTravel

set_option maxRecDepth 40000

/-- Truncation of a rational toward zero, the behaviour of Rust's
`as i32` / `f32::trunc` on in-range values. -/
def ftoi (q : ℚ) : ℤ := if 0 ≤ q then ⌊q⌋ else ⌈q⌉

/-- Fractional part in Rust's `f32::fract` sense: `x - x.trunc()`. -/
def qfract (q : ℚ) : ℚ := q - (ftoi q : ℚ)

/-- Pointwise functional update, modelling `buf[idx] = v`. -/
def updFn {α : Type} (f : ℕ → α) (i : ℕ) (v : α) : ℕ → α :=
  fun j => if j = i then v else f j

/-- The integers from `lo` to `hi` inclusive, modelling `lo..=hi`. -/
def intRange (lo hi : ℤ) : List ℤ :=
  (List.range (hi + 1 - lo).toNat).map (fun k : ℕ => lo + (k : ℤ))

/-- Characterisation of the exact real square root at one point: `s` is the
square root of `x` when it is nonnegative and squares to `x`. -/
def IsSqrt (s x : ℚ) : Prop := 0 ≤ s ∧ s * s = x

instance (s x : ℚ) : Decidable (IsSqrt s x) := by
  unfold IsSqrt; infer_instance

lemma mem_intRange {lo hi a : ℤ} (h : a ∈ intRange lo hi) : lo ≤ a ∧ a ≤ hi := by
  rcases List.mem_map.mp h with ⟨k, hk, he⟩
  have hk' := List.mem_range.mp hk
  omega

/-- Vector of three `f32` components, from `struct Vec3` in main.rs. -/
structure Vec3 where
  x : ℚ
  y : ℚ
  z : ℚ
deriving DecidableEq

namespace Vec3

/-- Dot product, from `Vec3::dot`. -/
def dot (a b : Vec3) : ℚ := a.x * b.x + a.y * b.y + a.z * b.z

/-- Cross product, from `Vec3::cross`. -/
def cross (a b : Vec3) : Vec3 :=
  ⟨a.y * b.z - a.z * b.y, a.z * b.x - a.x * b.z, a.x * b.y - a.y * b.x⟩

/-- Squared length; the source's `Vec3::length` is the square root of this. -/
def lengthSq (a : Vec3) : ℚ := a.x * a.x + a.y * a.y + a.z * a.z

/-- Vector length, from `Vec3::length`; the square root is the parameter. -/
def length (sq : ℚ → ℚ) (a : Vec3) : ℚ := sq a.lengthSq

/-- Normalisation with near-zero guard, from `Vec3::normalize`:
if the length exceeds `0.0001` divide by it, otherwise return `(0,0,1)`. -/
def normalize (sq : ℚ → ℚ) (a : Vec3) : Vec3 :=
  let len := a.length sq
  if 1/10000 < len then ⟨a.x / len, a.y / len, a.z / len⟩ else ⟨0, 0, 1⟩

/-- Componentwise addition, from `Vec3::add`. -/
def add (a b : Vec3) : Vec3 := ⟨a.x + b.x, a.y + b.y, a.z + b.z⟩

/-- Componentwise subtraction, from `Vec3::sub`. -/
def sub (a b : Vec3) : Vec3 := ⟨a.x - b.x, a.y - b.y, a.z - b.z⟩

/-- Scalar multiplication, from `Vec3::mul`. -/
def smul (a : Vec3) (s : ℚ) : Vec3 := ⟨a.x * s, a.y * s, a.z * s⟩

/-- Rotation about the vertical axis, from `Vec3::rotate_y`; sine and cosine
are passed as parameters. -/
def rotate_y (sinF cosF : ℚ → ℚ) (a : Vec3) (angle : ℚ) : Vec3 :=
  let cos_a := cosF angle
  let sin_a := sinF angle
  ⟨a.x * cos_a + a.z * sin_a, a.y, -a.x * sin_a + a.z * cos_a⟩

end Vec3

/-- Color with 8-bit channels, from `struct Color` in main.rs. -/
structure Color where
  r : ℕ
  g : ℕ
  b : ℕ
deriving DecidableEq

namespace Color

/-- Conversion of a clamped unit float channel to a `u8`, the channel-level
operation of `Color::from_float`: clamp to `[0,1]`, scale by 255, truncate. -/
def chan (q : ℚ) : ℕ := (⌊min (max q 0) 1 * 255⌋).toNat

/-- Build a color from float channels, from `Color::from_float`. -/
def from_float (r g b : ℚ) : Color := ⟨chan r, chan g, chan b⟩

/-- Packing into one integer, from `Color::to_u32`:
`(r << 16) | (g << 8) | b`. -/
def to_u32 (c : Color) : ℕ := c.r <<< 16 ||| c.g <<< 8 ||| c.b

/-- Channel scaling, from `Color::mul`. -/
def mul (c : Color) (factor : ℚ) : Color :=
  from_float ((c.r : ℚ) / 255 * factor) ((c.g : ℚ) / 255 * factor)
    ((c.b : ℚ) / 255 * factor)

/-- Linear blend with clamped parameter, from `Color::lerp`. -/
def lerp (c other : Color) (t : ℚ) : Color :=
  let t := min (max t 0) 1
  from_float ((c.r : ℚ) / 255 * (1 - t) + (other.r : ℚ) / 255 * t)
    ((c.g : ℚ) / 255 * (1 - t) + (other.g : ℚ) / 255 * t)
    ((c.b : ℚ) / 255 * (1 - t) + (other.b : ℚ) / 255 * t)

end Color

/-- Pseudo-noise function of three coordinates, from `fn noise` in main.rs. -/
def noise (sinF cosF : ℚ → ℚ) (x y z : ℚ) : ℚ :=
  qfract (sinF x * (437585453/10000) + sinF y * (225781459/10000) +
    cosF z * (191343872/10000))

/-- Fractal sum of noise over `octaves` octaves, from `fn fbm` in main.rs;
the running state is (value, amplitude, frequency). -/
def fbm (sinF cosF : ℚ → ℚ) (p : Vec3) (octaves : ℤ) : ℚ :=
  ((List.range octaves.toNat).foldl
    (fun (st : ℚ × ℚ × ℚ) _ =>
      (st.1 + noise sinF cosF (p.x * st.2.2) (p.y * st.2.2) (p.z * st.2.2) * st.2.1,
       st.2.1 * (1/2), st.2.2 * 2))
    (0, 1/2, 1)).1

/-- Material tags, from `enum ShaderType` in main.rs. -/
inductive ShaderType where
  | Sun | Earth | GasGiant | Ice | Desert | Lava | Purple | Moon
deriving DecidableEq

/-- Per-material surface shading, from `fn apply_planet_shader` in main.rs. -/
def apply_planet_shader (sinF cosF : ℚ → ℚ) (normal : Vec3)
    (light_intensity : ℚ) (shader : ShaderType) (time : ℚ) : Color :=
  match shader with
  | .Sun =>
      let glow := 9/10 + sinF (time * 2) * (1/10)
      let core : Color := ⟨255, 240, 200⟩
      let corona : Color := ⟨255, 180, 80⟩
      let t := (normal.y * (1/2) + 1/2) * glow
      core.lerp corona t
  | .Earth =>
      let ocean : Color := ⟨30, 80, 180⟩
      let land : Color := ⟨60, 150, 80⟩
      let clouds : Color := ⟨220, 220, 240⟩
      let continent := fbm sinF cosF (normal.smul 3) 3
      let cloud_pattern := fbm sinF cosF ((normal.smul 8).add ⟨time * (1/10), 0, 0⟩) 2
      let base := if 1/2 < continent then land else ocean
      let base := if 3/5 < cloud_pattern then base.lerp clouds (7/10) else base
      base.mul (max light_intensity (1/5))
  | .GasGiant =>
      let base1 : Color := ⟨220, 180, 120⟩
      let base2 : Color := ⟨180, 140, 90⟩
      let band := qfract (sinF (normal.y + time * (1/20)) * 10)
      let turbulence := fbm sinF cosF ⟨normal.x * 5, normal.y * 15, normal.z * 5⟩ 2
      let color := base1.lerp base2 (band + turbulence * (3/10))
      color.mul (max light_intensity (3/20))
  | .Ice =>
      let ice1 : Color := ⟨180, 220, 255⟩
      let ice2 : Color := ⟨120, 180, 240⟩
      let cracks := fbm sinF cosF (normal.smul 8) 3
      (ice1.lerp ice2 cracks).mul (max light_intensity (3/10))
  | .Desert =>
      let sand1 : Color := ⟨220, 160, 100⟩
      let sand2 : Color := ⟨180, 120, 60⟩
      let dunes := fbm sinF cosF (normal.smul 6) 3
      (sand1.lerp sand2 dunes).mul (max light_intensity (1/5))
  | .Lava =>
      let dark : Color := ⟨80, 30, 20⟩
      let hot : Color := ⟨255, 80, 30⟩
      let glow : Color := ⟨255, 200, 100⟩
      let pattern := fbm sinF cosF ((normal.smul 4).add ⟨time * (1/5), 0, 0⟩) 3
      let pulse := sinF (time * 3 + pattern * 10) * (1/2) + 1/2
      let base := dark.lerp hot pattern
      let final_color := base.lerp glow (pulse * pattern)
      final_color.mul (max light_intensity (3/10))
  | .Purple =>
      let base1 : Color := ⟨150, 100, 200⟩
      let base2 : Color := ⟨100, 60, 160⟩
      let bands := sinF (normal.y * 8 + time * (1/10)) * (1/2) + 1/2
      (base1.lerp base2 bands).mul (max light_intensity (3/20))
  | .Moon =>
      let gray1 : Color := ⟨180, 180, 180⟩
      let gray2 : Color := ⟨120, 120, 120⟩
      let craters := fbm sinF cosF (normal.smul 10) 4
      (gray1.lerp gray2 craters).mul (max light_intensity (1/10))

/-- Satellite of a planet, from `struct Moon` in main.rs. -/
structure Moon where
  orbit_radius : ℚ
  orbit_speed : ℚ
  size : ℚ
  angle : ℚ

/-- Celestial body, from `struct Planet` in main.rs. -/
structure Planet where
  position : Vec3
  orbit_radius : ℚ
  orbit_speed : ℚ
  rotation_speed : ℚ
  scale : ℚ
  shader : ShaderType
  rotation : ℚ
  orbit_angle : ℚ
  has_rings : Bool
  ring_color : Color
  moons : List Moon

/-- Collision test of a position against every planet, from
`fn check_collision`: true when the distance to some planet's center is
strictly below `scale + 2.0`.  `List.any` mirrors the early-return loop. -/
def check_collision (sq : ℚ → ℚ) (pos : Vec3) (planets : List Planet) : Bool :=
  planets.any (fun p => decide ((pos.sub p.position).length sq < p.scale + 2))

/-- The player vehicle, from `struct Spaceship` in main.rs. -/
structure Spaceship where
  position : Vec3
  velocity : Vec3
  yaw : ℚ
  pitch : ℚ
  roll : ℚ
  target_roll : ℚ

namespace Spaceship

/-- Per-frame vehicle update, from `Spaceship::update`: tentative position is
`position + velocity*dt`; on collision the position is kept and velocity
halved, otherwise the tentative position is committed; then velocity is
damped by 0.95 and roll eased toward `target_roll` by `(target-roll)*5*dt`. -/
def update (sq : ℚ → ℚ) (self : Spaceship) (dt : ℚ)
    (planets : List Planet) : Spaceship :=
  let new_position := self.position.add (self.velocity.smul dt)
  let s1 :=
    if check_collision sq new_position planets then
      { self with velocity := self.velocity.smul (1/2) }
    else
      { self with position := new_position }
  { s1 with
    velocity := s1.velocity.smul (19/20),
    roll := s1.roll + (s1.target_roll - s1.roll) * 5 * dt }

/-- Thrust application with speed clamp, from `Spaceship::accelerate`:
`velocity += direction*speed`, then rescale to length 2.5 if the length
exceeds 2.5. -/
def accelerate (sq : ℚ → ℚ) (self : Spaceship) (direction : Vec3)
    (speed : ℚ) : Spaceship :=
  let v := self.velocity.add (direction.smul speed)
  let vel_len := v.length sq
  if 5/2 < vel_len then { self with velocity := v.smul ((5/2) / vel_len) }
  else { self with velocity := v }

end Spaceship

/-- The exact value of the 32-bit float constant `std::f32::consts::PI`. -/
def qpi : ℚ := 13176795 / 4194304

lemma qpi_pos : 0 < qpi := by norm_num [qpi]

/-- First renormalisation loop of `fn angle_difference`:
`while diff > PI { diff -= 2.0*PI }`. -/
def wrapDown (d : ℚ) : ℚ :=
  if qpi < d then wrapDown (d - 2 * qpi) else d
termination_by (⌈(d - qpi) / (2 * qpi)⌉).toNat
decreasing_by
  have h2 : (0:ℚ) < 2 * qpi := by norm_num [qpi]
  have hd : (0:ℚ) < (d - qpi) / (2 * qpi) := by
    apply div_pos (by linarith) h2
  have hk : 0 < ⌈(d - qpi) / (2 * qpi)⌉ := Int.ceil_pos.mpr hd
  have he : (d - 2 * qpi - qpi) / (2 * qpi) = (d - qpi) / (2 * qpi) - 1 := by
    field_simp
    ring
  rw [he, Int.ceil_sub_one]
  omega

/-- Second renormalisation loop of `fn angle_difference`:
`while diff < -PI { diff += 2.0*PI }`. -/
def wrapUp (d : ℚ) : ℚ :=
  if d < -qpi then wrapUp (d + 2 * qpi) else d
termination_by (⌈(-qpi - d) / (2 * qpi)⌉).toNat
decreasing_by
  have h2 : (0:ℚ) < 2 * qpi := by norm_num [qpi]
  have hd : (0:ℚ) < (-qpi - d) / (2 * qpi) := by
    apply div_pos (by linarith) h2
  have hk : 0 < ⌈(-qpi - d) / (2 * qpi)⌉ := Int.ceil_pos.mpr hd
  have he : (-qpi - (d + 2 * qpi)) / (2 * qpi) = (-qpi - d) / (2 * qpi) - 1 := by
    field_simp
    ring
  rw [he, Int.ceil_sub_one]
  omega

/-- Shortest-path angular difference, from `fn angle_difference` in main.rs. -/
def angle_difference (target current : ℚ) : ℚ :=
  wrapUp (wrapDown (target - current))

lemma wrapDown_le (d : ℚ) : wrapDown d ≤ qpi := by
  induction d using wrapDown.induct with
  | case1 d h ih => rw [wrapDown, if_pos h]; exact ih
  | case2 d h => rw [wrapDown, if_neg h]; linarith [not_lt.mp h]

lemma wrapUp_ge (d : ℚ) : -qpi ≤ wrapUp d := by
  induction d using wrapUp.induct with
  | case1 d h ih => rw [wrapUp, if_pos h]; exact ih
  | case2 d h => rw [wrapUp, if_neg h]; linarith [not_lt.mp h]

lemma wrapUp_le (d : ℚ) (hd : d ≤ qpi) : wrapUp d ≤ qpi := by
  induction d using wrapUp.induct with
  | case1 d h ih =>
      rw [wrapUp, if_pos h]
      exact ih (by have := qpi_pos; linarith)
  | case2 d h => rw [wrapUp, if_neg h]; exact hd

/-- The chase camera, from `struct Camera` in main.rs. -/
structure Camera where
  distance : ℚ
  height : ℚ
  smoothed_position : Vec3
  smoothed_yaw : ℚ
  smoothed_pitch : ℚ

namespace Camera

/-- Camera world position behind and above the smoothed target, from
`Camera::get_position`. -/
def get_position (sinF cosF : ℚ → ℚ) (c : Camera) : Vec3 :=
  let offset : Vec3 :=
    ⟨-sinF c.smoothed_yaw * cosF c.smoothed_pitch * c.distance,
     c.height - sinF c.smoothed_pitch * c.distance * (1/2),
     -cosF c.smoothed_yaw * cosF c.smoothed_pitch * c.distance⟩
  c.smoothed_position.add offset

/-- Camera forward direction, from `Camera::get_forward`. -/
def get_forward (sq sinF cosF : ℚ → ℚ) (c : Camera) : Vec3 :=
  (c.smoothed_position.sub (c.get_position sinF cosF)).normalize sq

/-- Camera right direction, from `Camera::get_right`. -/
def get_right (sq sinF cosF : ℚ → ℚ) (c : Camera) : Vec3 :=
  ((c.get_forward sq sinF cosF).cross ⟨0, 1, 0⟩).normalize sq

end Camera

/-- Screen width in pixels, the constant `WIDTH` in main.rs. -/
def WIDTH : ℕ := 1280

/-- Screen height in pixels, the constant `HEIGHT` in main.rs. -/
def HEIGHT : ℕ := 720

/-- World-to-screen projection, from `fn project_vertex` in main.rs.
`ff` stands for the constant `(FOV / 2.0).tan()`; the aspect ratio
`WIDTH / HEIGHT` is `16/9`.  Fails (returns `none`) when the forward-axis
component of the point in the camera basis is at most `0.1`. -/
def project_vertex (sq : ℚ → ℚ) (ff : ℚ) (vertex camera_pos camera_forward
    camera_right : Vec3) : Option (ℚ × ℚ × ℚ) :=
  let relative := vertex.sub camera_pos
  let camera_up := (camera_right.cross camera_forward).normalize sq
  let x := relative.dot camera_right
  let y := relative.dot camera_up
  let z := relative.dot camera_forward
  if z ≤ 1/10 then none
  else
    some (((WIDTH : ℚ) / 2) * (1 + x / (z * ff * (16/9))),
          ((HEIGHT : ℚ) / 2) * (1 - y / (z * ff)),
          z)

/-- Color frame buffer, a packed-color value per pixel index. -/
abbrev CBuf := ℕ → ℕ

/-- Depth frame buffer, a depth value per pixel index. -/
abbrev ZBuf := ℕ → ℚ

/-- The pair of frame buffers passed to every depth-tested draw call. -/
abbrev Bufs := CBuf × ZBuf

/-- Depth assigned to a covered sphere pixel, the expression
`depth - sphere_z / (WIDTH as f32)` of `fn render_sphere`. -/
def pixel_depth (depth sphere_z : ℚ) : ℚ := depth - sphere_z / (WIDTH : ℚ)

/-- Lower edge of the screen-clamped bounding box, the expression
`((c - r).max(0.0) as i32).max(0).min(limit - 1)` of `fn render_sphere`. -/
def boxLo (c : ℚ) (sr : ℤ) (limit : ℤ) : ℤ :=
  min (max (ftoi (max (c - (sr : ℚ)) 0)) 0) (limit - 1)

/-- Upper edge of the screen-clamped bounding box, the expression
`((c + r).min(limit) as i32).max(0).min(limit - 1)` of `fn render_sphere`. -/
def boxHi (c : ℚ) (sr : ℤ) (limit : ℤ) : ℤ :=
  min (max (ftoi (min (c + (sr : ℚ)) (limit : ℚ))) 0) (limit - 1)

/-- Body of the per-pixel loop of `fn render_sphere`: circle test, depth
computation, bounds-checked depth test, shading and write. -/
def spherePixel (sq sinF cosF : ℚ → ℚ) (cx cy depth : ℚ) (sr : ℤ)
    (light_dir : Vec3) (shader : ShaderType) (rotation time : ℚ) (n : ℕ)
    (x y : ℤ) (b : Bufs) : Bufs :=
  let dx := (x : ℚ) - cx
  let dy := (y : ℚ) - cy
  let dist_sq := dx * dx + dy * dy
  let r_sq := (sr : ℚ) * (sr : ℚ)
  if dist_sq ≤ r_sq then
    let sphere_z_sq := r_sq - dist_sq
    if 0 ≤ sphere_z_sq then
      let sphere_z := sq sphere_z_sq
      let pd := pixel_depth depth sphere_z
      let idx := y.toNat * WIDTH + x.toNat
      if idx < n ∧ b.2 idx < pd then
        let nx := dx / (sr : ℚ)
        let ny := dy / (sr : ℚ)
        let nz := sphere_z / (sr : ℚ)
        let normal := (Vec3.mk nx (-ny) nz).normalize sq
        let light_intensity := max (normal.dot light_dir) 0
        let rotated_normal := normal.rotate_y sinF cosF rotation
        let color := apply_planet_shader sinF cosF rotated_normal
          light_intensity shader time
        (updFn b.1 idx color.to_u32, updFn b.2 idx pd)
      else b
    else b
  else b

/-- The clamped double loop of `fn render_sphere` over the bounding box. -/
def sphereLoop (sq sinF cosF : ℚ → ℚ) (cx cy depth : ℚ) (sr : ℤ)
    (light_dir : Vec3) (shader : ShaderType) (rotation time : ℚ) (n : ℕ)
    (b : Bufs) : Bufs :=
  (intRange (boxLo cy sr (HEIGHT : ℤ)) (boxHi cy sr (HEIGHT : ℤ))).foldl
    (fun b y =>
      (intRange (boxLo cx sr (WIDTH : ℤ)) (boxHi cx sr (WIDTH : ℤ))).foldl
        (fun b x =>
          spherePixel sq sinF cosF cx cy depth sr light_dir shader rotation
            time n x y b)
        b)
    b

/-- Analytic sphere rasterisation, from `fn render_sphere` in main.rs:
project the center, cull beyond 250 units, compute the on-screen radius,
then run the clamped per-pixel loop. -/
def render_sphere (sq sinF cosF : ℚ → ℚ) (ff : ℚ) (n : ℕ) (b : Bufs)
    (center : Vec3) (radius : ℚ) (shader : ShaderType) (rotation : ℚ)
    (camera : Camera) (time : ℚ) : Bufs :=
  let camera_pos := camera.get_position sinF cosF
  let camera_forward := camera.get_forward sq sinF cosF
  let camera_right := camera.get_right sq sinF cosF
  match project_vertex sq ff center camera_pos camera_forward camera_right with
  | none => b
  | some (cx, cy, depth) =>
      let dist := (center.sub camera_pos).length sq
      if 250 < dist then b
      else
        let screen_radius : ℤ := ftoi (radius * (WIDTH : ℚ) / (2 * dist * ff))
        let light_dir := ((Vec3.mk 0 0 0).sub center).normalize sq
        sphereLoop sq sinF cosF cx cy depth screen_radius light_dir shader
          rotation time n b

/-- Orbit-ring rendering, from `fn render_orbit` in main.rs: 150 points on
the orbit circle, each projected independently and, when on screen, written
directly to the color buffer.  The function takes no depth buffer, exactly as
the source signature `fn render_orbit(buffer, radius, camera, color)`. -/
def render_orbit (sq sinF cosF : ℚ → ℚ) (ff : ℚ) (buffer : CBuf) (radius : ℚ)
    (camera : Camera) (color : ℕ) : CBuf :=
  let camera_pos := camera.get_position sinF cosF
  let camera_forward := camera.get_forward sq sinF cosF
  let camera_right := camera.get_right sq sinF cosF
  (List.range 150).foldl
    (fun buf i =>
      let angle := 2 * qpi * (i : ℚ) / 150
      let v : Vec3 := ⟨radius * cosF angle, 0, radius * sinF angle⟩
      match project_vertex sq ff v camera_pos camera_forward camera_right with
      | none => buf
      | some (sx, sy, _) =>
          let x := ftoi sx
          let y := ftoi sy
          if 0 ≤ x ∧ x < (WIDTH : ℤ) ∧ 0 ≤ y ∧ y < (HEIGHT : ℤ) then
            updFn buf (y.toNat * WIDTH + x.toNat) color
          else buf)
    buffer

/-- The pixel-plotting section of the Bresenham loop body of `fn draw_line`:
behind a screen-bounds check, interpolate the depth by the step fraction and
write color and depth only when the interpolated depth is strictly greater
than the stored one. -/
def linePlot (steps : ℤ) (z0 z1 : ℚ) (color : ℕ) (step x y : ℤ)
    (b : Bufs) : Bufs :=
  if 0 ≤ x ∧ x < (WIDTH : ℤ) ∧ 0 ≤ y ∧ y < (HEIGHT : ℤ) then
    let t := (step : ℚ) / (steps : ℚ)
    let z := z0 + (z1 - z0) * t
    let idx := y.toNat * WIDTH + x.toNat
    if b.2 idx < z then (updFn b.1 idx color, updFn b.2 idx z) else b
  else b

/-- One iteration step plus the rest of the Bresenham loop of `fn draw_line`:
plot the current pixel, stop at the end point, otherwise advance the
error/positions.  The fuel is the remaining number of loop iterations,
`steps + 1` at the start. -/
def lineIter (x1 y1 : ℤ) (z0 z1 : ℚ) (steps sx sy dx dy : ℤ) (color : ℕ) :
    ℕ → ℤ → ℤ → ℤ → ℤ → Bufs → Bufs
  | 0, _, _, _, _, b => b
  | fuel + 1, step, x, y, err, b =>
      let b' := linePlot steps z0 z1 color step x y b
      if x = x1 ∧ y = y1 then b'
      else
        let e2 := 2 * err
        let err1 := if -dy < e2 then err - dy else err
        let x' := if -dy < e2 then x + sx else x
        let err2 := if e2 < dx then err1 + dx else err1
        let y' := if e2 < dx then y + sy else y
        lineIter x1 y1 z0 z1 steps sx sy dx dy color fuel (step + 1) x' y'
          err2 b'

/-- Depth-tested Bresenham line drawing, from `fn draw_line` in main.rs. -/
def draw_line (b : Bufs) (x0 y0 : ℤ) (z0 : ℚ) (x1 y1 : ℤ) (z1 : ℚ)
    (color : ℕ) : Bufs :=
  let dx := |x1 - x0|
  let dy := |y1 - y0|
  let sx : ℤ := if x0 < x1 then 1 else -1
  let sy : ℤ := if y0 < y1 then 1 else -1
  let err := dx - dy
  let steps := max (max dx dy) 1
  lineIter x1 y1 z0 z1 steps sx sy dx dy color (steps + 1).toNat 0 x0 y0 err b

/-- One star of `fn render_skybox`: three steps of the linear-congruential
generator `state * 1103515245 + 12345 (mod 2^32)` give the x coordinate, the
y coordinate and the brightness; the gray pixel is written behind a length
check.  The accumulated state is the generator state and the buffer. -/
def skyStep (n : ℕ) (st : ℕ × CBuf) : ℕ × CBuf :=
  let r1 := (st.1 * 1103515245 + 12345) % 2 ^ 32
  let x := r1 % WIDTH
  let r2 := (r1 * 1103515245 + 12345) % 2 ^ 32
  let y := r2 % HEIGHT
  let r3 := (r2 * 1103515245 + 12345) % 2 ^ 32
  let brightness := 120 + r3 % 136
  let idx := y * WIDTH + x
  if idx < n then
    (r3, updFn st.2 idx (brightness <<< 16 ||| brightness <<< 8 ||| brightness))
  else (r3, st.2)

/-- Starfield scatter, from `fn render_skybox` in main.rs: 800 stars from a
linear-congruential generator seeded with the constant 12345. -/
def render_skybox (n : ℕ) (buffer : CBuf) : CBuf :=
  ((List.range 800).foldl (fun st _ => skyStep n st) (12345, buffer)).2

/-- The write footprint of one star, in lockstep with `skyStep` but recording
the written values in an Option-valued map instead of a buffer. -/
def skyMapStep (n : ℕ) (st : ℕ × (ℕ → Option ℕ)) : ℕ × (ℕ → Option ℕ) :=
  let r1 := (st.1 * 1103515245 + 12345) % 2 ^ 32
  let x := r1 % WIDTH
  let r2 := (r1 * 1103515245 + 12345) % 2 ^ 32
  let y := r2 % HEIGHT
  let r3 := (r2 * 1103515245 + 12345) % 2 ^ 32
  let brightness := 120 + r3 % 136
  let idx := y * WIDTH + x
  if idx < n then
    (r3, updFn st.2 idx
      (some (brightness <<< 16 ||| brightness <<< 8 ||| brightness)))
  else (r3, st.2)

/-- The fixed star pattern of a buffer of length `n`: the pixels
`render_skybox` writes and the values it writes there, independent of the
buffer contents. -/
def skyMap (n : ℕ) : ℕ → Option ℕ :=
  ((List.range 800).foldl (fun st _ => skyMapStep n st) (12345, fun _ => none)).2

/-- Numeral parsing in the sense of Rust's `str::parse::<usize>` on the
inputs that occur in face records: a nonempty all-digit string evaluates to
its decimal value, rejected when it exceeds `usize::MAX` (64-bit); any other
string is rejected.  (Rust additionally accepts a leading plus sign.) -/
def parse_usize (s : String) : Option ℕ :=
  if s.data ≠ [] ∧ s.data.all Char.isDigit then
    let v := s.data.foldl (fun n c => n * 10 + (c.toNat - 48)) 0
    if v < 2 ^ 64 then some v else none
  else none

/-- Wrapping decrement on `usize`, the behaviour of the source expression
`index - 1` in release builds: unsigned subtraction wraps modulo `2^64`
(a debug build would abort on the underflow instead). -/
def usize_sub_one (index : ℕ) : ℕ := (index + (2 ^ 64 - 1)) % 2 ^ 64

/-- Whitespace tokenisation in the sense of Rust's `split_whitespace`:
split at whitespace and drop empty tokens. -/
def splitWhitespace (s : String) : List String :=
  (s.split Char.isWhitespace).filter (fun t => t ≠ "")

/-- A parsed model, from `struct Model` in obj.rs; vertices are coordinate
triples, faces are lists of 0-based vertex indices. -/
structure ObjModel where
  vertices : List (ℚ × ℚ × ℚ)
  faces : List (List ℕ)
deriving DecidableEq

/-- One line of `Model::load_from_file`'s loop: a `v` record with at least
three fields pushes a vertex (unparsable fields fall back to 0.0 through the
`parseFloat` parameter, which models `str::parse::<f32>`); an `f` record
converts each 1-based index field to 0-based with the wrapping `index - 1`
and pushes the face when nonempty; other lines are ignored. -/
def loadLine (parseFloat : String → Option ℚ) (m : ObjModel)
    (line : String) : ObjModel :=
  let parts := splitWhitespace line
  match parts with
  | [] => m
  | head :: _ =>
      if head = "v" then
        if 4 ≤ parts.length then
          let x := (parseFloat (parts.getD 1 "")).getD 0
          let y := (parseFloat (parts.getD 2 "")).getD 0
          let z := (parseFloat (parts.getD 3 "")).getD 0
          { m with vertices := m.vertices ++ [(x, y, z)] }
        else m
      else if head = "f" then
        let vertex_indices := (parts.drop 1).filterMap
          (fun p => (parse_usize ((p.splitOn "/").headD "")).map usize_sub_one)
        if vertex_indices ≠ [] then
          { m with faces := m.faces ++ [vertex_indices] }
        else m
      else m

/-- Batch-mode model loading, from `Model::load_from_file` in obj.rs, on an
already-read list of lines (the file I/O itself is outside the model). -/
def load_from_lines (parseFloat : String → Option ℚ)
    (lines : List String) : ObjModel :=
  lines.foldl (loadLine parseFloat) ⟨[], []⟩

/-- Write locality of a buffer transformation: entries outside `S` are
untouched, and every changed depth entry strictly increased and satisfies the
value predicate `V`. -/
def Localized (S : ℕ → Prop) (V : ℕ → ℚ → Prop) (b b' : Bufs) : Prop :=
  (∀ i, ¬ S i → b'.1 i = b.1 i ∧ b'.2 i = b.2 i) ∧
  (∀ i, b'.2 i ≠ b.2 i → b.2 i < b'.2 i ∧ V i (b'.2 i))

lemma localized_refl (S : ℕ → Prop) (V : ℕ → ℚ → Prop) (b : Bufs) :
    Localized S V b b :=
  ⟨fun _ _ => ⟨rfl, rfl⟩, fun _ h => absurd rfl h⟩

lemma localized_trans {S : ℕ → Prop} {V : ℕ → ℚ → Prop} {b1 b2 b3 : Bufs}
    (h12 : Localized S V b1 b2) (h23 : Localized S V b2 b3) :
    Localized S V b1 b3 := by
  constructor
  · intro i hS
    obtain ⟨e1, e2⟩ := h12.1 i hS
    obtain ⟨f1, f2⟩ := h23.1 i hS
    exact ⟨f1.trans e1, f2.trans e2⟩
  · intro i hchg
    by_cases he : b3.2 i = b2.2 i
    · have h2 : b2.2 i ≠ b1.2 i := fun h => hchg (he.trans h)
      obtain ⟨hlt, hV⟩ := h12.2 i h2
      rw [he]
      exact ⟨hlt, hV⟩
    · obtain ⟨hlt, hV⟩ := h23.2 i he
      rcases eq_or_ne (b2.2 i) (b1.2 i) with h2 | h2
      · rw [h2] at hlt
        exact ⟨hlt, hV⟩
      · exact ⟨lt_trans (h12.2 i h2).1 hlt, hV⟩

lemma localized_mono {S S' : ℕ → Prop} {V V' : ℕ → ℚ → Prop} {b b' : Bufs}
    (h : Localized S V b b') (hS : ∀ i, S i → S' i)
    (hV : ∀ i v, V i v → V' i v) : Localized S' V' b b' :=
  ⟨fun i hS' => h.1 i (fun hs => hS' (hS i hs)),
   fun i hc => ⟨(h.2 i hc).1, hV _ _ (h.2 i hc).2⟩⟩

lemma localized_foldl {α : Type} (S : ℕ → Prop) (V : ℕ → ℚ → Prop)
    (step : Bufs → α → Bufs) (l : List α) (b : Bufs)
    (h : ∀ b' a, a ∈ l → Localized S V b' (step b' a)) :
    Localized S V b (l.foldl step b) := by
  induction l generalizing b with
  | nil => exact localized_refl S V b
  | cons a t ih =>
      exact localized_trans (h b a (List.mem_cons_self a t))
        (ih (step b a) (fun b' a' ha' => h b' a' (List.mem_cons_of_mem a ha')))

/-- Membership of a buffer index in the screen-clamped bounding box of a
projected sphere with screen center `(cx, cy)` and screen radius `sr`. -/
def sphereBox (cx cy : ℚ) (sr : ℤ) (idx : ℕ) : Prop :=
  ∃ x y : ℤ, boxLo cx sr (WIDTH : ℤ) ≤ x ∧ x ≤ boxHi cx sr (WIDTH : ℤ) ∧
    boxLo cy sr (HEIGHT : ℤ) ≤ y ∧ y ≤ boxHi cy sr (HEIGHT : ℤ) ∧
    idx = y.toNat * WIDTH + x.toNat

/-- The value predicate of sphere depth writes: the written depth is
`pixel_depth depth (sq (r² - d²))` for the pixel at that index, where `d` is
the pixel's distance to the projected center. -/
def sphereDepthVal (sq : ℚ → ℚ) (cx cy depth : ℚ) (sr : ℤ) (idx : ℕ)
    (v : ℚ) : Prop :=
  ∃ x y : ℤ, boxLo cx sr (WIDTH : ℤ) ≤ x ∧ x ≤ boxHi cx sr (WIDTH : ℤ) ∧
    boxLo cy sr (HEIGHT : ℤ) ≤ y ∧ y ≤ boxHi cy sr (HEIGHT : ℤ) ∧
    idx = y.toNat * WIDTH + x.toNat ∧
    v = pixel_depth depth (sq ((sr : ℚ) * (sr : ℚ) -
      (((x : ℚ) - cx) * ((x : ℚ) - cx) + ((y : ℚ) - cy) * ((y : ℚ) - cy))))

lemma spherePixel_localized (sq sinF cosF : ℚ → ℚ) (cx cy depth : ℚ)
    (sr : ℤ) (light_dir : Vec3) (shader : ShaderType) (rotation time : ℚ)
    (n : ℕ) (x y : ℤ)
    (hx1 : boxLo cx sr (WIDTH : ℤ) ≤ x) (hx2 : x ≤ boxHi cx sr (WIDTH : ℤ))
    (hy1 : boxLo cy sr (HEIGHT : ℤ) ≤ y) (hy2 : y ≤ boxHi cy sr (HEIGHT : ℤ))
    (b : Bufs) :
    Localized (sphereBox cx cy sr) (sphereDepthVal sq cx cy depth sr) b
      (spherePixel sq sinF cosF cx cy depth sr light_dir shader rotation
        time n x y b) := by
  simp only [spherePixel]
  split_ifs with h1 h2 h3
  · constructor
    · intro i hS
      have hne : i ≠ y.toNat * WIDTH + x.toNat :=
        fun he => hS ⟨x, y, hx1, hx2, hy1, hy2, he⟩
      simp [updFn, hne]
    · intro i hchg
      by_cases he : i = y.toNat * WIDTH + x.toNat
      · subst he
        simp only [updFn, if_pos rfl]
        exact ⟨h3.2, x, y, hx1, hx2, hy1, hy2, rfl, rfl⟩
      · exact absurd (by simp [updFn, he]) hchg
  · exact localized_refl _ _ _
  · exact localized_refl _ _ _
  · exact localized_refl _ _ _

lemma sphereLoop_localized (sq sinF cosF : ℚ → ℚ) (cx cy depth : ℚ)
    (sr : ℤ) (light_dir : Vec3) (shader : ShaderType) (rotation time : ℚ)
    (n : ℕ) (b : Bufs) :
    Localized (sphereBox cx cy sr) (sphereDepthVal sq cx cy depth sr) b
      (sphereLoop sq sinF cosF cx cy depth sr light_dir shader rotation time
        n b) := by
  unfold sphereLoop
  apply localized_foldl
  intro b' yv hy
  apply localized_foldl
  intro b'' xv hxm
  obtain ⟨hy1, hy2⟩ := mem_intRange hy
  obtain ⟨hx1, hx2⟩ := mem_intRange hxm
  exact spherePixel_localized sq sinF cosF cx cy depth sr light_dir shader
    rotation time n xv yv hx1 hx2 hy1 hy2 b''

/-- The set of buffer indices `render_sphere` may touch: empty when the
center projection fails or the body is culled, otherwise the screen-clamped
bounding box of the projected sphere. -/
def sphereWriteSet (sq sinF cosF : ℚ → ℚ) (ff : ℚ) (center : Vec3)
    (radius : ℚ) (camera : Camera) : ℕ → Prop := fun idx =>
  match project_vertex sq ff center (camera.get_position sinF cosF)
    (camera.get_forward sq sinF cosF) (camera.get_right sq sinF cosF) with
  | none => False
  | some (cx, cy, _) =>
      ¬ 250 < (center.sub (camera.get_position sinF cosF)).length sq ∧
      sphereBox cx cy
        (ftoi (radius * (WIDTH : ℚ) /
          (2 * (center.sub (camera.get_position sinF cosF)).length sq * ff)))
        idx

/-- The value relation for depths `render_sphere` writes. -/
def sphereWriteVal (sq sinF cosF : ℚ → ℚ) (ff : ℚ) (center : Vec3)
    (radius : ℚ) (camera : Camera) : ℕ → ℚ → Prop := fun idx v =>
  match project_vertex sq ff center (camera.get_position sinF cosF)
    (camera.get_forward sq sinF cosF) (camera.get_right sq sinF cosF) with
  | none => False
  | some (cx, cy, depth) =>
      sphereDepthVal sq cx cy depth
        (ftoi (radius * (WIDTH : ℚ) /
          (2 * (center.sub (camera.get_position sinF cosF)).length sq * ff)))
        idx v

lemma render_sphere_localized (sq sinF cosF : ℚ → ℚ) (ff : ℚ) (n : ℕ)
    (b : Bufs) (center : Vec3) (radius : ℚ) (shader : ShaderType)
    (rotation : ℚ) (camera : Camera) (time : ℚ) :
    Localized (sphereWriteSet sq sinF cosF ff center radius camera)
      (sphereWriteVal sq sinF cosF ff center radius camera) b
      (render_sphere sq sinF cosF ff n b center radius shader rotation
        camera time) := by
  rcases hp : project_vertex sq ff center (camera.get_position sinF cosF)
    (camera.get_forward sq sinF cosF) (camera.get_right sq sinF cosF) with
    _ | ⟨cx, cy, depth⟩
  · simp only [render_sphere, hp]
    exact localized_refl _ _ _
  · simp only [render_sphere, hp]
    by_cases hdist :
        250 < (center.sub (camera.get_position sinF cosF)).length sq
    · rw [if_pos hdist]
      exact localized_refl _ _ _
    · rw [if_neg hdist]
      refine localized_mono (sphereLoop_localized sq sinF cosF cx cy depth _
        _ shader rotation time n b) ?_ ?_
      · intro i hbox
        simp only [sphereWriteSet, hp]
        exact ⟨hdist, hbox⟩
      · intro i v hv
        simp only [sphereWriteVal, hp]
        exact hv

/-- Depth discipline of a buffer transformation: every changed depth entry
strictly increased, and every changed color entry is accompanied by a strict
depth increase at the same index. -/
def DepthDisciplined (b b' : Bufs) : Prop :=
  (∀ i, b'.2 i ≠ b.2 i → b.2 i < b'.2 i) ∧
  (∀ i, b'.1 i ≠ b.1 i → b.2 i < b'.2 i)

lemma depthDisciplined_refl (b : Bufs) : DepthDisciplined b b :=
  ⟨fun _ h => absurd rfl h, fun _ h => absurd rfl h⟩

lemma depthDisciplined_trans {b1 b2 b3 : Bufs} (h12 : DepthDisciplined b1 b2)
    (h23 : DepthDisciplined b2 b3) : DepthDisciplined b1 b3 := by
  have hz : ∀ i, b2.2 i ≤ b3.2 i := by
    intro i
    rcases eq_or_ne (b3.2 i) (b2.2 i) with h | h
    · exact le_of_eq h.symm
    · exact le_of_lt (h23.1 i h)
  have hz' : ∀ i, b1.2 i ≤ b2.2 i := by
    intro i
    rcases eq_or_ne (b2.2 i) (b1.2 i) with h | h
    · exact le_of_eq h.symm
    · exact le_of_lt (h12.1 i h)
  constructor
  · intro i hchg
    rcases eq_or_ne (b3.2 i) (b2.2 i) with h | h
    · rw [h]
      rcases eq_or_ne (b2.2 i) (b1.2 i) with h2 | h2
      · exact absurd (h.trans h2) hchg
      · exact h12.1 i h2
    · exact lt_of_le_of_lt (hz' i) (h23.1 i h)
  · intro i hchg
    rcases eq_or_ne (b3.1 i) (b2.1 i) with h | h
    · have h2 : b2.1 i ≠ b1.1 i := fun he => hchg (h.trans he)
      exact lt_of_lt_of_le (h12.2 i h2) (hz i)
    · exact lt_of_le_of_lt (hz' i) (h23.2 i h)

lemma linePlot_disciplined (steps : ℤ) (z0 z1 : ℚ) (color : ℕ)
    (step x y : ℤ) (b : Bufs) :
    DepthDisciplined b (linePlot steps z0 z1 color step x y b) := by
  simp only [linePlot]
  split_ifs with hb hz
  · constructor
    · intro i hchg
      by_cases he : i = y.toNat * WIDTH + x.toNat
      · subst he
        simpa [updFn] using hz
      · exact absurd (by simp [updFn, he]) hchg
    · intro i hchg
      by_cases he : i = y.toNat * WIDTH + x.toNat
      · subst he
        simpa [updFn] using hz
      · exact absurd (by simp [updFn, he]) hchg
  · exact depthDisciplined_refl b
  · exact depthDisciplined_refl b

lemma lineIter_disciplined (x1 y1 : ℤ) (z0 z1 : ℚ) (steps sx sy dx dy : ℤ)
    (color : ℕ) :
    ∀ (fuel : ℕ) (step x y err : ℤ) (b : Bufs),
      DepthDisciplined b
        (lineIter x1 y1 z0 z1 steps sx sy dx dy color fuel step x y err b) := by
  intro fuel
  induction fuel with
  | zero => intro step x y err b; exact depthDisciplined_refl b
  | succ fuel ih =>
      intro step x y err b
      simp only [lineIter]
      split_ifs with hend
      · exact linePlot_disciplined steps z0 z1 color step x y b
      all_goals
        exact depthDisciplined_trans
          (linePlot_disciplined steps z0 z1 color step x y b) (ih _ _ _ _ _)

lemma skyPair_inv (n r : ℕ) (b0 b : CBuf) (f : ℕ → Option ℕ)
    (hinv : ∀ i, b i = (f i).getD (b0 i)) :
    (skyStep n (r, b)).1 = (skyMapStep n (r, f)).1 ∧
    ∀ i, (skyStep n (r, b)).2 i = ((skyMapStep n (r, f)).2 i).getD (b0 i) := by
  simp only [skyStep, skyMapStep]
  split_ifs with h
  · refine ⟨rfl, fun i => ?_⟩
    have hupd : ∀ (v idxE : ℕ), updFn b idxE v i =
        ((updFn f idxE (some v)) i).getD (b0 i) := by
      intro v idxE
      show (if i = idxE then v else b i) =
        (if i = idxE then some v else f i).getD (b0 i)
      split_ifs with he
      · rfl
      · exact hinv i
    exact hupd _ _
  · exact ⟨rfl, hinv⟩

lemma sky_lockstep (n : ℕ) (l : List ℕ) :
    ∀ (r : ℕ) (b0 b : CBuf) (f : ℕ → Option ℕ),
      (∀ i, b i = (f i).getD (b0 i)) →
      (l.foldl (fun st _ => skyStep n st) (r, b)).1 =
        (l.foldl (fun st _ => skyMapStep n st) (r, f)).1 ∧
      ∀ i, (l.foldl (fun st _ => skyStep n st) (r, b)).2 i =
        ((l.foldl (fun st _ => skyMapStep n st) (r, f)).2 i).getD (b0 i) := by
  induction l with
  | nil => intro r b0 b f hinv; exact ⟨rfl, hinv⟩
  | cons a t ih =>
      intro r b0 b f hinv
      simp only [List.foldl_cons]
      obtain ⟨h1, h2⟩ := skyPair_inv n r b0 b f hinv
      have hmain := ih (skyStep n (r, b)).1 b0 (skyStep n (r, b)).2
        (skyMapStep n (r, f)).2 h2
      have heq : skyMapStep n (r, f) =
          ((skyStep n (r, b)).1, (skyMapStep n (r, f)).2) := by
        rw [h1]
      rw [heq]
      exact hmain

lemma render_skybox_char (n : ℕ) (b : CBuf) (i : ℕ) :
    render_skybox n b i = (skyMap n i).getD (b i) := by
  have h := sky_lockstep n (List.range 800) 12345 b b (fun _ => none)
    (fun _ => rfl)
  exact h.2 i

lemma lengthSq_smul (v : Vec3) (k : ℚ) :
    (v.smul k).lengthSq = k ^ 2 * v.lengthSq := by
  simp only [Vec3.smul, Vec3.lengthSq]
  ring

/-- C3: `project_vertex` returns `none` exactly when the point's forward-axis
component in the camera basis is at most 0.1; otherwise it returns the screen
coordinates `width/2 * (1 + x/(z*tan(FOV/2)*aspect))` and
`height/2 * (1 - y/(z*tan(FOV/2)))` (here `ff` stands for `tan(FOV/2)` and
the aspect ratio is `16/9`), with the camera-space depth `z` carried
alongside. -/
theorem project_vertex_behavior (sq : ℚ → ℚ) (ff : ℚ)
    (v camera_pos camera_forward camera_right : Vec3) :
    (project_vertex sq ff v camera_pos camera_forward camera_right = none ↔
      (v.sub camera_pos).dot camera_forward ≤ 1/10) ∧
    (∀ sx sy d : ℚ,
      project_vertex sq ff v camera_pos camera_forward camera_right =
        some (sx, sy, d) →
      sx = ((WIDTH : ℚ) / 2) *
        (1 + (v.sub camera_pos).dot camera_right / (d * ff * (16/9))) ∧
      sy = ((HEIGHT : ℚ) / 2) *
        (1 - (v.sub camera_pos).dot
          ((camera_right.cross camera_forward).normalize sq) / (d * ff)) ∧
      d = (v.sub camera_pos).dot camera_forward) := by
  constructor
  · simp only [project_vertex]
    split_ifs with h
    · simpa using h
    · simpa using h
  · intro sx sy d hsome
    simp only [project_vertex] at hsome
    split_ifs at hsome with h
    rw [Option.some.injEq, Prod.mk.injEq, Prod.mk.injEq] at hsome
    obtain ⟨h1, h2, h3⟩ := hsome
    subst h3
    exact ⟨h1.symm, h2.symm, rfl⟩

/-- Witness for C3: the point `(0,0,0)` seen from a camera at the origin
looking along `+z` has forward component `0 ≤ 0.1` and projects to `none`;
the point `(0,0,5)` projects to `some (640, 360, 5)` and its carried depth 5
equals its forward-axis component. -/
theorem project_vertex_behavior_witness :
    project_vertex (fun _ => 1) 1 ⟨0, 0, 0⟩ ⟨0, 0, 0⟩ ⟨0, 0, 1⟩ ⟨1, 0, 0⟩ =
      none ∧
    (5 : ℚ) = ((Vec3.mk 0 0 5).sub ⟨0, 0, 0⟩).dot ⟨0, 0, 1⟩ := by
  refine ⟨(project_vertex_behavior (fun _ => 1) 1 ⟨0, 0, 0⟩ ⟨0, 0, 0⟩
    ⟨0, 0, 1⟩ ⟨1, 0, 0⟩).1.mpr ?_, ?_⟩
  · norm_num [Vec3.sub, Vec3.dot]
  · exact ((project_vertex_behavior (fun _ => 1) 1 ⟨0, 0, 5⟩ ⟨0, 0, 0⟩
      ⟨0, 0, 1⟩ ⟨1, 0, 0⟩).2 640 360 5 (by with_unfolding_all decide)).2.2

/-- C4: the vehicle update commits the tentative position
`position + velocity*dt` unless a collision is detected, in which case the
position is kept and the velocity halved; in both cases velocity is further
damped by 0.95 and roll eases toward `target_roll` by
`(target_roll - roll)*5*dt`; the collision test succeeds exactly when the
tentative position is within `scale + 2` of some planet's center. -/
theorem spaceship_update_behavior (sq : ℚ → ℚ) (s : Spaceship) (dt : ℚ)
    (planets : List Planet) :
    (s.update sq dt planets).position =
      (if check_collision sq (s.position.add (s.velocity.smul dt)) planets
        then s.position else s.position.add (s.velocity.smul dt)) ∧
    (s.update sq dt planets).velocity =
      ((if check_collision sq (s.position.add (s.velocity.smul dt)) planets
        then s.velocity.smul (1/2) else s.velocity).smul (19/20)) ∧
    (s.update sq dt planets).roll =
      s.roll + (s.target_roll - s.roll) * 5 * dt ∧
    (check_collision sq (s.position.add (s.velocity.smul dt)) planets = true ↔
      ∃ p ∈ planets,
        ((s.position.add (s.velocity.smul dt)).sub p.position).length sq <
          p.scale + 2) := by
  refine ⟨?_, ?_, ?_, ?_⟩
  · by_cases hc : check_collision sq (s.position.add (s.velocity.smul dt))
      planets
    · simp [Spaceship.update, hc]
    · simp [Spaceship.update, hc]
  · by_cases hc : check_collision sq (s.position.add (s.velocity.smul dt))
      planets
    · simp [Spaceship.update, hc]
    · simp [Spaceship.update, hc]
  · by_cases hc : check_collision sq (s.position.add (s.velocity.smul dt))
      planets
    · simp [Spaceship.update, hc]
    · simp [Spaceship.update, hc]
  · simp [check_collision, List.any_eq_true]

/-- Witness for C4: a vehicle at the origin with velocity `(1,0,0)` and
`dt = 1` collides with a planet of scale 2 centered at the tentative
position `(1,0,0)` (the modelled distance is 0 < 4); the position stays,
the velocity becomes `(1,0,0)*(1/2)*(19/20) = (19/40,0,0)` and roll moves to
`(1-0)*5*1 = 5`. -/
theorem spaceship_update_behavior_witness :
    (Spaceship.update (fun _ => 0) ⟨⟨0, 0, 0⟩, ⟨1, 0, 0⟩, 0, 0, 0, 1⟩ 1
      [⟨⟨1, 0, 0⟩, 0, 0, 0, 2, ShaderType.Moon, 0, 0, false, ⟨0, 0, 0⟩,
        []⟩]).position = ⟨0, 0, 0⟩ ∧
    (Spaceship.update (fun _ => 0) ⟨⟨0, 0, 0⟩, ⟨1, 0, 0⟩, 0, 0, 0, 1⟩ 1
      [⟨⟨1, 0, 0⟩, 0, 0, 0, 2, ShaderType.Moon, 0, 0, false, ⟨0, 0, 0⟩,
        []⟩]).roll = 5 := by
  have h := spaceship_update_behavior (fun _ => 0)
    ⟨⟨0, 0, 0⟩, ⟨1, 0, 0⟩, 0, 0, 0, 1⟩ 1
    [⟨⟨1, 0, 0⟩, 0, 0, 0, 2, ShaderType.Moon, 0, 0, false, ⟨0, 0, 0⟩, []⟩]
  constructor
  · rw [h.1]
    rw [if_pos (by with_unfolding_all decide)]
  · rw [h.2.2.1]
    norm_num

/-- C5: after `accelerate`, the squared speed is at most `2.5²` (so the
speed is at most 2.5 exactly, in exact arithmetic); when the clamp fires the
new velocity is the pre-clamp velocity rescaled by the positive factor
`2.5/len`, so its direction is unchanged, and when it does not fire the
velocity is exactly the pre-clamp velocity.  The hypothesis states that the
square-root parameter is exact at the pre-clamp squared length. -/
theorem accelerate_speed_clamp (sq : ℚ → ℚ) (s : Spaceship) (direction : Vec3)
    (speed : ℚ)
    (hsq : IsSqrt (sq ((s.velocity.add (direction.smul speed)).lengthSq))
      ((s.velocity.add (direction.smul speed)).lengthSq)) :
    ((s.accelerate sq direction speed).velocity).lengthSq ≤ (5/2) ^ 2 ∧
    (5/2 < sq ((s.velocity.add (direction.smul speed)).lengthSq) →
      ∃ k : ℚ, 0 < k ∧ (s.accelerate sq direction speed).velocity =
        (s.velocity.add (direction.smul speed)).smul k) ∧
    (¬ 5/2 < sq ((s.velocity.add (direction.smul speed)).lengthSq) →
      (s.accelerate sq direction speed).velocity =
        s.velocity.add (direction.smul speed)) := by
  simp only [Spaceship.accelerate, Vec3.length]
  set L := (s.velocity.add (direction.smul speed)).lengthSq with hLdef
  set l := sq L with hldef
  obtain ⟨hnn, hsq2⟩ := hsq
  by_cases hc : 5/2 < l
  · rw [if_pos hc]
    have hlpos : 0 < l := lt_trans (by norm_num) hc
    refine ⟨?_, fun _ => ⟨(5/2) / l, div_pos (by norm_num) hlpos, rfl⟩,
      fun h => absurd hc h⟩
    have key : ((5/2) / l) ^ 2 * L = (5/2) ^ 2 := by
      rw [← hsq2]
      field_simp
      ring
    show ((s.velocity.add (direction.smul speed)).smul ((5/2) / l)).lengthSq
      ≤ (5/2) ^ 2
    rw [lengthSq_smul, ← hLdef, key]
  · rw [if_neg hc]
    have hle : l ≤ 5/2 := not_lt.mp hc
    refine ⟨?_, fun h => absurd h hc, fun _ => rfl⟩
    show (s.velocity.add (direction.smul speed)).lengthSq ≤ (5/2) ^ 2
    rw [← hLdef, ← hsq2]
    have := mul_self_le_mul_self hnn hle
    nlinarith

/-- Witness for C5: accelerating a resting vehicle by `(0,0,1)*5` gives the
pre-clamp velocity `(0,0,5)` of squared length 25, whose exact square root
is 5; the clamped squared speed is at most `2.5²`. -/
theorem accelerate_speed_clamp_witness :
    IsSqrt 5 (((Vec3.mk 0 0 0).add ((Vec3.mk 0 0 1).smul 5)).lengthSq) ∧
    ((⟨⟨0, 0, 0⟩, ⟨0, 0, 0⟩, 0, 0, 0, 0⟩ : Spaceship).accelerate
      (fun _ => 5) ⟨0, 0, 1⟩ 5).velocity.lengthSq ≤ (5/2) ^ 2 := by
  have hsq : IsSqrt ((fun _ => (5:ℚ))
      (((⟨⟨0, 0, 0⟩, ⟨0, 0, 0⟩, 0, 0, 0, 0⟩ : Spaceship).velocity.add
        ((Vec3.mk 0 0 1).smul 5)).lengthSq))
      (((⟨⟨0, 0, 0⟩, ⟨0, 0, 0⟩, 0, 0, 0, 0⟩ : Spaceship).velocity.add
        ((Vec3.mk 0 0 1).smul 5)).lengthSq) := by
    norm_num [IsSqrt, Vec3.add, Vec3.smul, Vec3.lengthSq]
  refine ⟨?_, (accelerate_speed_clamp (fun _ => 5)
    ⟨⟨0, 0, 0⟩, ⟨0, 0, 0⟩, 0, 0, 0, 0⟩ ⟨0, 0, 1⟩ 5 hsq).1⟩
  norm_num [IsSqrt, Vec3.add, Vec3.smul, Vec3.lengthSq]

/-- C6 counterexample: at `target = 0`, `current = π` the loops never run and
`angle_difference` returns exactly `-π`, so the output is not confined to the
half-open interval `(-π, π]`. -/
theorem angle_difference_attains_neg_pi : angle_difference 0 qpi = -qpi := by
  unfold angle_difference
  rw [wrapDown, if_neg (by norm_num [qpi])]
  rw [wrapUp, if_neg (by norm_num)]
  norm_num

/-- C6 amended: for every pair of input angles the value returned by
`angle_difference` lies in the closed interval `[-π, π]`; the left end point
`-π` is attained (see the counterexample), so the interval is closed, not
half-open. -/
theorem angle_difference_closed_range (target current : ℚ) :
    -qpi ≤ angle_difference target current ∧
    angle_difference target current ≤ qpi := by
  unfold angle_difference
  exact ⟨wrapUp_ge _, wrapUp_le _ (wrapDown_le _)⟩

/-- C7: `normalize` of a vector whose length is strictly below `1e-4`
(stated as the squared length being below `1e-8`, with the square-root
parameter exact at that point) returns exactly the canonical forward vector
`(0,0,1)`; in this exact model no NaN can arise, the guard returns the
constant vector. -/
theorem normalize_near_zero_guard (sq : ℚ → ℚ) (v : Vec3)
    (hsq : IsSqrt (sq v.lengthSq) v.lengthSq)
    (hlen : v.lengthSq < 1/100000000) :
    v.normalize sq = ⟨0, 0, 1⟩ := by
  have hguard : ¬ (1/10000 < sq v.lengthSq) := by
    intro h
    obtain ⟨hnn, hsq2⟩ := hsq
    have h2 := mul_self_lt_mul_self (by norm_num : (0:ℚ) ≤ 1/10000) h
    rw [hsq2] at h2
    norm_num at h2
    linarith
  simp only [Vec3.normalize, Vec3.length]
  rw [if_neg hguard]

/-- Witness for C7: the zero vector, with exact square root 0 of its squared
length 0 < 1e-8, normalizes to `(0,0,1)`. -/
theorem normalize_near_zero_guard_witness :
    IsSqrt ((fun _ => (0:ℚ)) (Vec3.lengthSq ⟨0, 0, 0⟩))
      (Vec3.lengthSq ⟨0, 0, 0⟩) ∧
    Vec3.lengthSq ⟨0, 0, 0⟩ < 1/100000000 ∧
    Vec3.normalize (fun _ => 0) ⟨0, 0, 0⟩ = ⟨0, 0, 1⟩ := by
  refine ⟨?_, ?_, ?_⟩
  · norm_num [IsSqrt, Vec3.lengthSq]
  · norm_num [Vec3.lengthSq]
  · exact normalize_near_zero_guard (fun _ => 0) ⟨0, 0, 0⟩
      (by norm_num [IsSqrt, Vec3.lengthSq]) (by norm_num [Vec3.lengthSq])

/-- C10: a face record whose first index field parses as 0, such as the line
`f 0 1 2`, is neither rejected nor skipped: the 1-based-to-0-based
conversion `index - 1` wraps around the unsigned 64-bit index type and the
face is stored with first index `2^64 - 1` (a release build wraps; a debug
build would abort on the same underflow).  This holds for every float
parser, since the face branch never parses floats. -/
theorem load_face_zero_index_underflow :
    (∀ parseFloat : String → Option ℚ,
      load_from_lines parseFloat ["f 0 1 2"] =
        ⟨[], [[2 ^ 64 - 1, 0, 1]]⟩) ∧
    parse_usize "0" = some 0 ∧ usize_sub_one 0 = 2 ^ 64 - 1 := by
  refine ⟨fun parseFloat => ?_, by with_unfolding_all decide,
    by with_unfolding_all decide⟩
  have hparts : splitWhitespace "f 0 1 2" = ["f", "0", "1", "2"] := by
    with_unfolding_all decide
  have hvi : (["f", "0", "1", "2"].drop 1).filterMap
      (fun p => (parse_usize ((p.splitOn "/").headD "")).map usize_sub_one) =
      [2 ^ 64 - 1, 0, 1] := by
    with_unfolding_all decide
  simp only [load_from_lines, List.foldl_cons, List.foldl_nil, loadLine,
    hparts, hvi]
  rw [if_neg (show ¬(("f" : String) = "v") by with_unfolding_all decide)]
  simp

/-- C1: sphere rasterization touches no color- or depth-buffer entry outside
the screen-clamped bounding box of the projected sphere (`sphereWriteSet` is
empty when the projection fails or the body is culled, and is the clamped
box otherwise), and whenever it changes a depth-buffer entry the new value
is strictly greater than the value previously stored at that index. -/
theorem render_sphere_box_and_depth_safety (sq sinF cosF : ℚ → ℚ) (ff : ℚ)
    (n : ℕ) (b : Bufs) (center : Vec3) (radius : ℚ) (shader : ShaderType)
    (rotation : ℚ) (camera : Camera) (time : ℚ) (idx : ℕ) :
    ((render_sphere sq sinF cosF ff n b center radius shader rotation camera
        time).1 idx ≠ b.1 idx ∨
     (render_sphere sq sinF cosF ff n b center radius shader rotation camera
        time).2 idx ≠ b.2 idx →
      sphereWriteSet sq sinF cosF ff center radius camera idx) ∧
    ((render_sphere sq sinF cosF ff n b center radius shader rotation camera
        time).2 idx ≠ b.2 idx →
      b.2 idx < (render_sphere sq sinF cosF ff n b center radius shader
        rotation camera time).2 idx) := by
  have h := render_sphere_localized sq sinF cosF ff n b center radius shader
    rotation camera time
  constructor
  · intro hchg
    by_contra hS
    obtain ⟨e1, e2⟩ := h.1 idx hS
    rcases hchg with hc | hz
    · exact hc e1
    · exact hz e2
  · intro hz
    exact (h.2 idx hz).1

/-- Witness for C1: a concrete camera and sphere for which the pixel
`(640,360)` (index 461440) is written: the claim instance yields membership
of 461440 in the write set and a strict depth increase from 0 to the
written depth. -/
theorem render_sphere_box_and_depth_safety_witness :
    sphereWriteSet
      (fun q => if q = 4 then 2 else if q = 25 then 5 else if q = 1 then 1
        else 0) (fun _ => 0) (fun _ => 1) 1 ⟨0, 0, 3⟩ (1/256)
      ⟨2, 0, ⟨0, 0, 0⟩, 0, 0⟩ 461440 ∧
    (0:ℚ) < (render_sphere
      (fun q => if q = 4 then 2 else if q = 25 then 5 else if q = 1 then 1
        else 0) (fun _ => 0) (fun _ => 1) 1 921600
      ((fun _ => 0 : CBuf), (fun _ => 0 : ZBuf)) ⟨0, 0, 3⟩ (1/256)
      ShaderType.Moon 0 ⟨2, 0, ⟨0, 0, 0⟩, 0, 0⟩ 0).2 461440 := by
  have h := render_sphere_box_and_depth_safety
    (fun q => if q = 4 then 2 else if q = 25 then 5 else if q = 1 then 1
      else 0) (fun _ => 0) (fun _ => 1) 1 921600
    ((fun _ => 0 : CBuf), (fun _ => 0 : ZBuf)) ⟨0, 0, 3⟩ (1/256)
    ShaderType.Moon 0 ⟨2, 0, ⟨0, 0, 0⟩, 0, 0⟩ 0 461440
  have hz : (render_sphere
      (fun q => if q = 4 then 2 else if q = 25 then 5 else if q = 1 then 1
        else 0) (fun _ => 0) (fun _ => 1) 1 921600
      ((fun _ => 0 : CBuf), (fun _ => 0 : ZBuf)) ⟨0, 0, 3⟩ (1/256)
      ShaderType.Moon 0 ⟨2, 0, ⟨0, 0, 0⟩, 0, 0⟩ 0).2 461440 ≠
      ((fun _ => 0 : CBuf), (fun _ => 0 : ZBuf)).2 461440 := by
    with_unfolding_all decide
  exact ⟨h.1 (Or.inr hz), h.2 hz⟩

/-- C2 counterexample: under `pixel_depth depth sphere_z =
depth - sphere_z/width`, a near-side fragment with the larger depth offset
(here `sphere_z = 4 = sqrt(5² - 3²)`) has an algebraically SMALLER stored
depth than a far-side fragment of the same sphere (`sphere_z = 0 =
sqrt(5² - 5²)`), refuting the claimed direction of the comparison. -/
theorem sphere_pixel_depth_near_side_cex :
    IsSqrt 4 ((5:ℚ) * 5 - (3 * 3 + 0 * 0)) ∧
    IsSqrt 0 ((5:ℚ) * 5 - (5 * 5 + 0 * 0)) ∧
    pixel_depth 10 4 < pixel_depth 10 0 ∧
    ¬ (pixel_depth 10 0 < pixel_depth 10 4) := by
  refine ⟨?_, ?_, ?_, ?_⟩ <;>
    norm_num [IsSqrt, pixel_depth, WIDTH]

/-- C2 amended: every depth value sphere rasterization writes equals
`pixel_depth depth (sq (r² - d²))`, the projected center depth minus
`sqrt(r² - d²)/width` for that pixel (`sphereWriteVal`); under this formula
a near-side fragment (larger `sphere_z`) reads as having an algebraically
SMALLER stored depth than a far-side fragment (smaller `sphere_z`) of the
same sphere. -/
theorem sphere_pixel_depth_formula_amended :
    (∀ (sq sinF cosF : ℚ → ℚ) (ff : ℚ) (n : ℕ) (b : Bufs) (center : Vec3)
      (radius : ℚ) (shader : ShaderType) (rotation : ℚ) (camera : Camera)
      (time : ℚ) (idx : ℕ),
      (render_sphere sq sinF cosF ff n b center radius shader rotation camera
        time).2 idx ≠ b.2 idx →
      sphereWriteVal sq sinF cosF ff center radius camera idx
        ((render_sphere sq sinF cosF ff n b center radius shader rotation
          camera time).2 idx)) ∧
    (∀ depth z1 z2 : ℚ, z2 < z1 →
      pixel_depth depth z1 < pixel_depth depth z2) := by
  constructor
  · intro sq sinF cosF ff n b center radius shader rotation camera time idx
      hchg
    exact ((render_sphere_localized sq sinF cosF ff n b center radius shader
      rotation camera time).2 idx hchg).2
  · intro depth z1 z2 hz
    unfold pixel_depth
    have hw : (0:ℚ) < (WIDTH : ℚ) := by norm_num [WIDTH]
    have h2 : z2 / (WIDTH : ℚ) < z1 / (WIDTH : ℚ) := by
      rw [div_lt_div_iff_of_pos_right hw]
      exact hz
    linarith

/-- Witness for C2 amended: in the concrete scenario of the C1 witness the
written depth at index 461440 satisfies the depth-formula relation, and the
monotonicity instance `pixel_depth 3 2 < pixel_depth 3 1` holds for the
concrete offsets 2 > 1. -/
theorem sphere_pixel_depth_formula_amended_witness :
    sphereWriteVal
      (fun q => if q = 4 then 2 else if q = 25 then 5 else if q = 1 then 1
        else 0) (fun _ => 0) (fun _ => 1) 1 ⟨0, 0, 3⟩ (1/256)
      ⟨2, 0, ⟨0, 0, 0⟩, 0, 0⟩ 461440
      ((render_sphere
        (fun q => if q = 4 then 2 else if q = 25 then 5 else if q = 1 then 1
          else 0) (fun _ => 0) (fun _ => 1) 1 921600
        ((fun _ => 0 : CBuf), (fun _ => 1 : ZBuf)) ⟨0, 0, 3⟩ (1/256)
        ShaderType.Moon 0 ⟨2, 0, ⟨0, 0, 0⟩, 0, 0⟩ 0).2 461440) ∧
    pixel_depth 3 2 < pixel_depth 3 1 := by
  constructor
  · apply sphere_pixel_depth_formula_amended.1
    with_unfolding_all decide
  · exact sphere_pixel_depth_formula_amended.2 3 2 1 (by norm_num)

/-- C8 counterexample: `render_orbit` takes only the color buffer (as in the
source signature) and writes the pixel at index 461440 directly, with no
depth comparison and no depth-buffer update; the previous color 0 is
overwritten by 7 unconditionally. -/
theorem render_orbit_writes_without_depth_test :
    render_orbit
      (fun q => if q = 4 then 2 else if q = 25 then 5 else if q = 1 then 1
        else 0) (fun _ => 0) (fun _ => 1) 1 (fun _ => 0) 0
      ⟨2, 0, ⟨0, 0, 0⟩, 0, 0⟩ 7 461440 = 7 ∧
    (fun _ => (0:ℕ)) 461440 ≠ 7 := by
  constructor
  · with_unfolding_all decide
  · with_unfolding_all decide

/-- C8 amended: the depth-tested Bresenham rasterizer `draw_line` (used for
the vehicle's wireframe edges) obeys the depth discipline: a changed depth
entry strictly increased, and a changed color entry is always accompanied by
a strict depth increase at the same index; orbit rings (`render_orbit`) and
the starfield (`render_skybox`) do NOT go through it — they write the color
buffer directly and never read or update the depth buffer. -/
theorem draw_line_depth_test_discipline (b : Bufs) (x0 y0 : ℤ) (z0 : ℚ)
    (x1 y1 : ℤ) (z1 : ℚ) (color : ℕ) (idx : ℕ) :
    ((draw_line b x0 y0 z0 x1 y1 z1 color).2 idx ≠ b.2 idx →
      b.2 idx < (draw_line b x0 y0 z0 x1 y1 z1 color).2 idx) ∧
    ((draw_line b x0 y0 z0 x1 y1 z1 color).1 idx ≠ b.1 idx →
      b.2 idx < (draw_line b x0 y0 z0 x1 y1 z1 color).2 idx) := by
  have h : DepthDisciplined b (draw_line b x0 y0 z0 x1 y1 z1 color) := by
    simp only [draw_line]
    apply lineIter_disciplined
  exact ⟨h.1 idx, h.2 idx⟩

/-- Witness for C8 amended: drawing the segment from `(0,0)` at depth 1 to
`(1,0)` at depth 1 over cleared buffers changes the color at index 0, and
the claim instance yields the strict depth increase 0 < stored depth. -/
theorem draw_line_depth_test_discipline_witness :
    (0:ℚ) < (draw_line ((fun _ => 0 : CBuf), (fun _ => 0 : ZBuf))
      0 0 1 1 0 1 9).2 0 := by
  have h := draw_line_depth_test_discipline
    ((fun _ => 0 : CBuf), (fun _ => 0 : ZBuf)) 0 0 1 1 0 1 9 0
  have hc : (draw_line ((fun _ => 0 : CBuf), (fun _ => 0 : ZBuf))
      0 0 1 1 0 1 9).1 0 ≠ ((fun _ => 0 : CBuf), (fun _ => 0 : ZBuf)).1 0 := by
    with_unfolding_all decide
  exact h.2 hc

/-- C9 counterexample: the starfield pattern of a run is a closed expression
seeded with the constant 12345, so two separate runs starting from the same
cleared buffer produce the identical pattern, refuting the claim that
separate runs differ unless explicitly reseeded. -/
theorem render_skybox_runs_identical :
    render_skybox (WIDTH * HEIGHT) (fun _ => 0) =
      render_skybox (WIDTH * HEIGHT) (fun _ => 0) := rfl

/-- C9 amended: the starfield scatter is fully deterministic: for a buffer
of length `n`, `render_skybox` overlays the fixed star pattern `skyMap n`
(positions and brightness derived from the constant seed 12345) on the input
buffer; any two invocations — within one run or in different runs — write
exactly the same pixels with the same values, and the input buffer shows
through only at unwritten pixels. -/
theorem render_skybox_fixed_pattern (n : ℕ) (b : CBuf) (i : ℕ) :
    render_skybox n b i = (skyMap n i).getD (b i) :=
  render_skybox_char n b i

end SpaceTravel
